import Mathlib

/-!
Verification of the SmartCity Dash (Civora) geospatial hazard store.

The development embeds, in order:
* the `hazards` table and the two SQL RPCs of `supabase_setup.sql`
  (`insert_hazard`, `get_hazards_within_radius`);
* the parts of the backend service surface that the repository's files only
  document (validation, defaulting, the history endpoint, the km conversion),
  modelled from the spec where so marked;
* the zustand client store action `reportHazard` and its mock-record
  generators from `useStore.js`;
* `groupIncidentsByDate` from `app/(main)/history.js`.

Geodesic distance (PostGIS `ST_Distance` on `GEOGRAPHY` values) is external
library code; it is passed as an explicit function parameter `dist`, so every
theorem about the radius query holds for the true great-circle distance in
particular.
-/

namespace Civora

set_option maxRecDepth 8000

/-- Floor of a rational, written so that it evaluates by kernel reduction
(`Int.fdiv` floor-divides; a rational's denominator is positive). -/
def ratFloor (q : ℚ) : ℤ := q.num.fdiv q.den

theorem ratFloor_eq_floor (q : ℚ) : ratFloor q = ⌊q⌋ := by
  rw [Rat.floor_def, ratFloor, Int.fdiv_eq_ediv _ (Int.natCast_nonneg q.den)]

/-- PostgreSQL `CAST(... AS INT)` applied to the distance: rounds to the
nearest integer.  (The tie case at half-integers never matters to any claim
below; half-up is used.) -/
def pgCastInt (q : ℚ) : ℤ := ratFloor (q + 1/2)

/-- JavaScript `parseFloat(x.toFixed(2))`: round to two decimal places.  All
uses below are on nonnegative values, where `toFixed` rounds half up. -/
def toFixed2 (q : ℚ) : ℚ := (pgCastInt (q * 100) : ℚ) / 100

/-- One row of the `hazards` table (`supabase_setup.sql`).  `location` is the
`GEOGRAPHY(POINT)` column, stored as `(longitude, latitude)` — the argument
order of `ST_MakePoint(p_longitude, p_latitude)`.  UUIDs are modelled as
naturals and timestamps as integers. -/
structure HazardRow where
  id : Nat
  driver_id : Nat
  hazard_type : String
  severity_level : String
  confidence_score : ℚ
  location : ℚ × ℚ
  latitude : ℚ
  longitude : ℚ
  created_at : ℤ
deriving DecidableEq, Repr

/-- The `hazards` table CHECK constraint:
`confidence_score >= 0 AND confidence_score <= 1`. -/
def confidenceCheck (c : ℚ) : Bool := decide (0 ≤ c) && decide (c ≤ 1)

/-- RPC `insert_hazard`: one `INSERT` populating `location` and the
`latitude`/`longitude` columns from the same two parameters, returning the
persisted row.  `gen_id` and `now` stand for `gen_random_uuid()` and `NOW()`.
The insert fails (raises) exactly when the table CHECK on
`confidence_score` is violated. -/
def insert_hazard (db : List HazardRow) (p_driver_id : Nat)
    (p_latitude p_longitude : ℚ) (p_hazard_type p_severity_level : String)
    (p_confidence_score : ℚ) (gen_id : Nat) (now : ℤ) :
    Option (List HazardRow × HazardRow) :=
  if confidenceCheck p_confidence_score then
    let row : HazardRow :=
      { id := gen_id
        driver_id := p_driver_id
        hazard_type := p_hazard_type
        severity_level := p_severity_level
        confidence_score := p_confidence_score
        location := (p_longitude, p_latitude)
        latitude := p_latitude
        longitude := p_longitude
        created_at := now }
    some (db ++ [row], row)
  else
    none

/-- PostGIS `ST_DWithin(a, b, m)` on geography: true iff the geodesic
distance between `a` and `b` is at most `m` meters.  `dist` is the geodesic
distance function (library code, hence a parameter). -/
def st_dwithin (dist : ℚ × ℚ → ℚ × ℚ → ℚ) (a b : ℚ × ℚ) (m : ℚ) : Bool :=
  decide (dist a b ≤ m)

/-- RPC `get_hazards_within_radius`: keep the rows whose location is within
`p_radius_km * 1000` meters of the query center
(`ST_MakePoint(p_longitude, p_latitude)`), attach
`CAST(ST_Distance(...) AS INT)` as `distance_meters`, and `ORDER BY
distance_meters ASC` (a stable sort on that single key). -/
def get_hazards_within_radius (dist : ℚ × ℚ → ℚ × ℚ → ℚ) (db : List HazardRow)
    (p_latitude p_longitude p_radius_km : ℚ) : List (HazardRow × ℤ) :=
  let center : ℚ × ℚ := (p_longitude, p_latitude)
  let kept := db.filter fun h => st_dwithin dist h.location center (p_radius_km * 1000)
  let withDist := kept.map fun h => (h, pgCastInt (dist h.location center))
  List.insertionSort (fun a b => a.2 ≤ b.2) withDist

/-! ### Backend service surface

The FastAPI backend (`backend/app/main.py`, `models.py`, `database.py`,
`ai_gateway.py`) is documented by the repository but its Python sources are
not among the repository files here; the definitions in this section are
modelled from the spec, as their doc comments say.  `insert_hazard` and
`get_hazards_within_radius` above remain the authoritative storage layer. -/

/-- The fixed hazard type enumeration (spec §3; README whitelist). -/
def hazardTypes : List String :=
  ["pothole", "broken_streetlight", "waterlogging", "traffic_congestion",
   "accident", "road_debris"]

/-- The fixed severity enumeration (spec §3). -/
def severityLevels : List String := ["low", "medium", "high", "critical"]

/-- Modelled from the spec: the backend report validation
(`backend/app/models.py`, not among the repository's files): latitude in
[-90, 90], longitude in [-180, 180], `hazard_type` a recognized enumeration
member.  Boundary values are accepted (spec §8: "latitude 90.0 and -90.0
accepted; 90.0001 and -90.0001 rejected; longitude 180.0 accepted,
180.0001 rejected"). -/
def validReport (lat lon : ℚ) (ty : String) : Bool :=
  decide (-90 ≤ lat) && decide (lat ≤ 90) && decide (-180 ≤ lon) &&
    decide (lon ≤ 180) && decide (ty ∈ hazardTypes)

/-- Modelled from the spec (§7): an unrecognized or missing `severity`
defaults to `"medium"`. -/
def resolveSeverity (sev : Option String) : String :=
  match sev with
  | some s => if s ∈ severityLevels then s else "medium"
  | none => "medium"

/-- A submission severity field the validator does not recognize: absent, or
not a member of the severity enumeration (spec §7's "unrecognized
`severity`"). -/
def sevUnrecognized : Option String → Prop
  | none => True
  | some s => s ∉ severityLevels

/-- Modelled from the spec (§7): a missing `confidence` defaults to a bounded
pseudo-random value in the configured range `[cmin, cmax]`
(`MOCK_AI_CONFIDENCE_MIN`/`MAX`); `rand` is the random draw in `[0, 1]`. -/
def resolveConfidence (conf : Option ℚ) (cmin cmax rand : ℚ) : ℚ :=
  match conf with
  | some c => c
  | none => cmin + rand * (cmax - cmin)

/-- Modelled from the spec: the backend submit path
(`POST /api/report-hazard`, `backend/app/main.py`, not among the
repository's files): validate the report, resolve severity/confidence
defaults, then run the source's `insert_hazard` RPC.  A rejected report
returns the store unchanged with no row. -/
def submitReport (db : List HazardRow) (driver : Nat) (lat lon : ℚ)
    (ty : String) (sev : Option String) (conf : Option ℚ)
    (cmin cmax rand : ℚ) (gen_id : Nat) (now : ℤ) :
    List HazardRow × Option HazardRow :=
  if validReport lat lon ty then
    match insert_hazard db driver lat lon ty (resolveSeverity sev)
        (resolveConfidence conf cmin cmax rand) gen_id now with
    | some (db2, row) => (db2, some row)
    | none => (db, none)
  else
    (db, none)

/-- Modelled from the spec (§6): the boundary attaches `distance_km` by
dividing the internally computed integer `distance_meters` by 1000
(`backend/app/main.py`, not among the repository's files). -/
def nearbyHazardsResponse (dist : ℚ × ℚ → ℚ × ℚ → ℚ) (db : List HazardRow)
    (p_latitude p_longitude p_radius_km : ℚ) : List (HazardRow × ℤ × ℚ) :=
  (get_hazards_within_radius dist db p_latitude p_longitude p_radius_km).map
    fun p => (p.1, p.2, (p.2 : ℚ) / 1000)

/-- Modelled from the spec (§4.3): the history operation
(`GET /api/driver/{id}/history`, `backend/app/main.py` + `database.py`, not
among the repository's files): all hazards with matching reporter, ordered
by `created_at` descending, paginated by offset/limit. -/
def history (db : List HazardRow) (reporter : Nat) (limit offset : Nat) :
    List HazardRow :=
  ((List.insertionSort (fun a b : HazardRow => b.created_at ≤ a.created_at)
      (db.filter fun h => decide (h.driver_id = reporter))).drop offset).take limit

/-! ### The zustand client store (`useStore.js`) -/

/-- A hazard record as the client handles it: the shape built by the mock
generators and returned by the backend.  `created_at` (an ISO string in JS)
is modelled as an integer timestamp. -/
structure ClientHazard where
  id : String
  driver_id : String
  hazard_type : String
  severity_level : String
  confidence_score : ℚ
  latitude : ℚ
  longitude : ℚ
  created_at : ℤ
deriving DecidableEq, Repr

/-- The driver-settings record of `_mockSettings` / the settings endpoints. -/
structure DriverSettings where
  driver_id : String
  full_name : String
  vehicle_type : String
  auto_reporting : Bool
  high_resolution : Bool
  sound_alerts : Bool
  cloud_backup : Bool
  anonymous_mode : Bool
  updated_at : ℤ
deriving DecidableEq, Repr

/-- The state fields of the zustand store created in `useStore.js`. -/
structure StoreState where
  driverId : Option String
  driverSettings : Option DriverSettings
  nearbyHazards : List ClientHazard
  nearbyHazardsCount : Nat
  driverHistory : List ClientHazard
  loading : Bool
  error : Option String
deriving DecidableEq, Repr

/-- JavaScript `id || get().driverId`: the argument when present, else the
stored driver id (null/undefined modelled as `none`). -/
def jsOr (a b : Option String) : Option String :=
  match a with
  | some s => some s
  | none => b

/-- The severity pool of the `reportHazard` catch branch:
`['low', 'medium', 'high']`. -/
def severityChoices : List String := ["low", "medium", "high"]

/-- The fallback record built in the catch branch of `reportHazard`:
`severity_level` is drawn from `severityChoices`, `confidence_score` is
`parseFloat((0.75 + Math.random() * 0.23).toFixed(2))`; `now` is
`Date.now()`, `sevIdx = Math.floor(Math.random() * 3)` and `rand` the
second `Math.random()` draw. -/
def mockReportRecord (driverId : String) (lat lon : ℚ) (ty : String)
    (now : ℤ) (sevIdx : Fin severityChoices.length) (rand : ℚ) : ClientHazard :=
  { id := "mock-" ++ toString now
    driver_id := driverId
    hazard_type := ty
    severity_level := severityChoices.get sevIdx
    confidence_score := toFixed2 (3/4 + rand * (23/100))
    latitude := lat
    longitude := lon
    created_at := now }

/-- The store action `reportHazard` (`useStore.js`).  `apiResult` is the
outcome of the awaited `api.reportHazard` call: `some data` when it
resolves, `none` when it throws and the catch branch builds the mock
record.  Both branches prepend the record to `driverHistory` and increment
`nearbyHazardsCount`; zustand's `set` merges, leaving every other field
as it was. -/
def reportHazard (s : StoreState) (idArg : Option String) (lat lon : ℚ)
    (ty : String) (apiResult : Option ClientHazard) (now : ℤ)
    (sevIdx : Fin severityChoices.length) (rand : ℚ) :
    StoreState × Option ClientHazard :=
  match jsOr idArg s.driverId with
  | none => (s, none)
  | some driverId =>
    let record :=
      match apiResult with
      | some data => data
      | none => mockReportRecord driverId lat lon ty now sevIdx rand
    ({ s with
        driverHistory := record :: s.driverHistory
        nearbyHazardsCount := s.nearbyHazardsCount + 1 },
     some record)

/-- Confidence score of a `_mockHistory` record:
`parseFloat((0.75 + Math.random() * 0.23).toFixed(2))`. -/
def mockHistoryConfidence (rand : ℚ) : ℚ := toFixed2 (3/4 + rand * (23/100))

/-- Confidence score of a `_mockNearby` record:
`parseFloat((0.8 + Math.random() * 0.18).toFixed(2))`. -/
def mockNearbyConfidence (rand : ℚ) : ℚ := toFixed2 (4/5 + rand * (18/100))

/-! ### `groupIncidentsByDate` (`app/(main)/history.js`) -/

/-- A JavaScript `Date`, reduced to the reads `groupIncidentsByDate`
performs: calendar day (`toDateString` compares year/month/day), `getTime()`
in milliseconds, `getDate()` and `getMonth()` (0-based). -/
structure JsDate where
  year : ℤ
  month : Nat
  day : Nat
  epochMs : ℤ
deriving DecidableEq, Repr

/-- Gregorian leap year, as JavaScript `Date` computes the calendar. -/
def isLeapYear (y : ℤ) : Bool :=
  (decide (y % 4 = 0) && decide (y % 100 ≠ 0)) || decide (y % 400 = 0)

/-- Days in 0-based month `m` of year `y`. -/
def daysInMonth (y : ℤ) (m : Nat) : Nat :=
  if m = 1 then (if isLeapYear y then 29 else 28)
  else if m = 3 ∨ m = 5 ∨ m = 8 ∨ m = 10 then 30
  else 31

/-- `yesterday.setDate(today.getDate() - 1)`: the previous calendar day as
`(year, month, day)`, rolling over month and year boundaries. -/
def prevCalendarDay (d : JsDate) : ℤ × Nat × Nat :=
  if 1 < d.day then (d.year, d.month, d.day - 1)
  else if d.month = 0 then (d.year - 1, 11, 31)
  else (d.year, d.month - 1, daysInMonth d.year (d.month - 1))

/-- The section keys `groupIncidentsByDate` produces.  In the source they
are strings; `"Today"`, `"Yesterday"` and `"This Week"` never collide with a
date label `"<day> <month-name>"`, so an inductive key is faithful.  A date
label keeps only `getDate()` and `getMonth()` (no year), as the source
string does. -/
inductive DateKey where
  | today : DateKey
  | yesterday : DateKey
  | thisWeek : DateKey
  | dateLabel : Nat → Nat → DateKey
deriving DecidableEq, Repr

/-- The date key of one incident: same calendar day as now → `Today`;
previous calendar day → `Yesterday`; otherwise strictly less than 7 days of
milliseconds before now → `This Week`; otherwise the day/month label. -/
def dateKeyOf (today : JsDate) (d : JsDate) : DateKey :=
  if d.year = today.year ∧ d.month = today.month ∧ d.day = today.day then
    DateKey.today
  else
    let y := prevCalendarDay today
    if d.year = y.1 ∧ d.month = y.2.1 ∧ d.day = y.2.2 then
      DateKey.yesterday
    else if today.epochMs - d.epochMs < 7 * 24 * 60 * 60 * 1000 then
      DateKey.thisWeek
    else
      DateKey.dateLabel d.day d.month

/-- The sort rank of a key: `{ Today: 0, Yesterday: 1, 'This Week': 2 }` and
`?? 3` for every date label. -/
def keyRank : DateKey → Nat
  | DateKey.today => 0
  | DateKey.yesterday => 1
  | DateKey.thisWeek => 2
  | DateKey.dateLabel _ _ => 3

/-- An incident as the history screen renders it; only `created_at` matters
to the grouping. -/
structure Incident where
  id : String
  hazard_type : String
  severity_level : String
  confidence_score : ℚ
  created_at : JsDate
deriving DecidableEq, Repr

/-- `groups[dateKey].push(item)` on a JS object: append to the existing
group when the key is present, else add a new key at the end (JS objects
preserve string-key insertion order). -/
def pushGroup {κ α : Type} [DecidableEq κ] (k : κ) (x : α) :
    List (κ × List α) → List (κ × List α)
  | [] => [(k, [x])]
  | (k2, xs) :: rest =>
    if k = k2 then (k2, xs ++ [x]) :: rest
    else (k2, xs) :: pushGroup k x rest

/-- One rendered section of the `SectionList`: `{ title: date, data:
groups[date] }`. -/
structure HistorySection where
  title : DateKey
  data : List Incident
deriving DecidableEq, Repr

/-- `groupIncidentsByDate` (`history.js`): group the incidents by date key
in first-occurrence order, then order the keys by rank — `Today`,
`Yesterday`, `This Week`, then the date labels — with JavaScript's stable
`Array.prototype.sort`, and emit the sections. -/
def groupIncidentsByDate (today : JsDate) (incidents : List Incident) :
    List HistorySection :=
  let groups := incidents.foldl
    (fun g item => pushGroup (dateKeyOf today item.created_at) item g) []
  (List.insertionSort (fun a b => keyRank a.1 ≤ keyRank b.1) groups).map
    fun p => { title := p.1, data := p.2 }

/-! ### General lemmas -/

instance distInsertTotal :
    IsTotal (HazardRow × ℤ) (fun a b => a.2 ≤ b.2) :=
  ⟨fun a b => le_total a.2 b.2⟩

instance distInsertTrans :
    IsTrans (HazardRow × ℤ) (fun a b => a.2 ≤ b.2) :=
  ⟨fun _ _ _ h1 h2 => le_trans h1 h2⟩

instance createdDescTotal :
    IsTotal HazardRow (fun a b => b.created_at ≤ a.created_at) :=
  ⟨fun a b => le_total b.created_at a.created_at⟩

instance createdDescTrans :
    IsTrans HazardRow (fun a b => b.created_at ≤ a.created_at) :=
  ⟨fun _ _ _ h1 h2 => le_trans h2 h1⟩

instance keyRankTotal {α : Type} :
    IsTotal (DateKey × α) (fun a b => keyRank a.1 ≤ keyRank b.1) :=
  ⟨fun a b => le_total (keyRank a.1) (keyRank b.1)⟩

instance keyRankTrans {α : Type} :
    IsTrans (DateKey × α) (fun a b => keyRank a.1 ≤ keyRank b.1) :=
  ⟨fun _ _ _ h1 h2 => le_trans h1 h2⟩

theorem mem_get_hazards_within_radius (dist : ℚ × ℚ → ℚ × ℚ → ℚ)
    (db : List HazardRow) (lat lon rkm : ℚ) (h : HazardRow) (dm : ℤ) :
    (h, dm) ∈ get_hazards_within_radius dist db lat lon rkm ↔
      h ∈ db ∧ dist h.location (lon, lat) ≤ rkm * 1000 ∧
        dm = pgCastInt (dist h.location (lon, lat)) := by
  simp only [get_hazards_within_radius, List.mem_insertionSort, List.mem_map,
    List.mem_filter, st_dwithin, decide_eq_true_eq, Prod.mk.injEq]
  constructor
  · rintro ⟨h0, ⟨h0db, h0le⟩, rfl, rfl⟩
    exact ⟨h0db, h0le, rfl⟩
  · rintro ⟨hdb, hle, rfl⟩
    exact ⟨h, ⟨hdb, hle⟩, rfl, rfl⟩

/-! ### C1 -/

/-- C1 counterexample input: a geometrically realizable distance function
for the three stored hazards below, seen from the query center `(0, 0)`:
`cexH1` and `cexH3` share a location 100.9 m away, `cexH2` is 100.6 m
away. -/
def cexDist : ℚ × ℚ → ℚ × ℚ → ℚ := fun a _ =>
  if a = (1, 1) then 1009/10 else if a = (2, 2) then 1006/10 else 0

def cexH1 : HazardRow :=
  { id := 1, driver_id := 7, hazard_type := "pothole", severity_level := "low",
    confidence_score := 9/10, location := (1, 1), latitude := 1,
    longitude := 1, created_at := 10 }

def cexH2 : HazardRow :=
  { cexH1 with
      id := 2
      location := (2, 2)
      latitude := 2
      longitude := 2
      created_at := 20 }

def cexH3 : HazardRow := { cexH1 with id := 3, created_at := 30 }

/-- C1 counterexample: the query result is NOT ordered as the claim states.
With the store `[cexH1, cexH2, cexH3]` and center `(0, 0)`, all three
distances round to 101 m, so `ORDER BY distance_meters` returns table
order: true distance 100.9 m precedes 100.6 m (not non-decreasing in the
distance to the center), and of the two equal-distance hazards `cexH1`
(older, created 10) precedes `cexH3` (newer, created 30) — not
newest-first. -/
theorem c1_ordering_counterexample :
    ¬ List.Pairwise
        (fun a b : HazardRow × ℤ =>
          cexDist a.1.location (0, 0) ≤ cexDist b.1.location (0, 0) ∧
            (cexDist a.1.location (0, 0) = cexDist b.1.location (0, 0) →
              b.1.created_at ≤ a.1.created_at))
        (get_hazards_within_radius cexDist [cexH1, cexH2, cexH3] 0 0 1) := by
  with_unfolding_all decide

/-- C1 amended: the sequence returned by `get_hazards_within_radius` is
sorted non-decreasing in the attached integer `distance_meters` — the
rounded distance the query actually orders by.  (No `created_at` tie-break
exists in the source; equal `distance_meters` keep table order, as the
counterexample shows.) -/
theorem c1_sorted_by_distance_meters (dist : ℚ × ℚ → ℚ × ℚ → ℚ)
    (db : List HazardRow) (lat lon rkm : ℚ) :
    List.Sorted (fun a b : HazardRow × ℤ => a.2 ≤ b.2)
      (get_hazards_within_radius dist db lat lon rkm) := by
  simp only [get_hazards_within_radius]
  exact List.sorted_insertionSort _ _

/-! ### C2 -/

/-- C2: a hazard appears in the radius query result iff it is stored and its
distance to the query center is at most the query radius (`radius_km * 1000`
meters).  The distance function is universally quantified, so this holds in
particular for the true great-circle distance, and no spatial-index pruning
can change it: the embedded query filters every stored row by
`ST_DWithin` directly. -/
theorem c2_radius_correctness (dist : ℚ × ℚ → ℚ × ℚ → ℚ)
    (db : List HazardRow) (lat lon rkm : ℚ) (h : HazardRow) :
    h ∈ (get_hazards_within_radius dist db lat lon rkm).map Prod.fst ↔
      h ∈ db ∧ dist h.location (lon, lat) ≤ rkm * 1000 := by
  simp only [List.mem_map]
  constructor
  · rintro ⟨⟨h0, dm⟩, hmem, rfl⟩
    have := (mem_get_hazards_within_radius dist db lat lon rkm h0 dm).mp hmem
    exact ⟨this.1, this.2.1⟩
  · rintro ⟨hdb, hle⟩
    exact ⟨(h, pgCastInt (dist h.location (lon, lat))),
      (mem_get_hazards_within_radius dist db lat lon rkm h _).mpr
        ⟨hdb, hle, rfl⟩, rfl⟩

/-! ### Helper lemmas for the submit path -/

theorem confidenceCheck_iff (c : ℚ) :
    confidenceCheck c = true ↔ 0 ≤ c ∧ c ≤ 1 := by
  simp [confidenceCheck]

theorem validReport_iff (lat lon : ℚ) (ty : String) :
    validReport lat lon ty = true ↔
      -90 ≤ lat ∧ lat ≤ 90 ∧ -180 ≤ lon ∧ lon ≤ 180 ∧ ty ∈ hazardTypes := by
  simp [validReport, and_assoc]

theorem insert_hazard_of_check (db : List HazardRow) (drv : Nat)
    (lat lon : ℚ) (ty sev : String) (c : ℚ) (gid : Nat) (now : ℤ)
    (hc : confidenceCheck c = true) :
    insert_hazard db drv lat lon ty sev c gid now =
      some (db ++ [⟨gid, drv, ty, sev, c, (lon, lat), lat, lon, now⟩],
        ⟨gid, drv, ty, sev, c, (lon, lat), lat, lon, now⟩) := by
  simp [insert_hazard, hc]

theorem resolveSeverity_of_unrecognized (sev : Option String)
    (h : sevUnrecognized sev) : resolveSeverity sev = "medium" := by
  cases sev with
  | none => rfl
  | some s => exact if_neg (h : s ∉ severityLevels)

theorem submitReport_valid (db : List HazardRow) (drv : Nat) (lat lon : ℚ)
    (ty : String) (sev : Option String) (conf : Option ℚ)
    (cmin cmax rand : ℚ) (gid : Nat) (now : ℤ)
    (hv : validReport lat lon ty = true)
    (hc : confidenceCheck (resolveConfidence conf cmin cmax rand) = true) :
    submitReport db drv lat lon ty sev conf cmin cmax rand gid now =
      (db ++ [⟨gid, drv, ty, resolveSeverity sev,
          resolveConfidence conf cmin cmax rand, (lon, lat), lat, lon, now⟩],
        some ⟨gid, drv, ty, resolveSeverity sev,
          resolveConfidence conf cmin cmax rand, (lon, lat), lat, lon, now⟩) := by
  unfold submitReport
  rw [hv, insert_hazard_of_check db drv lat lon ty (resolveSeverity sev)
    (resolveConfidence conf cmin cmax rand) gid now hc]
  rfl

/-! ### C3 -/

/-- The cross-structure invariant of the `hazards` table: every stored row's
`GEOGRAPHY` point (the column the spatial GIST index is built on) holds the
same coordinates as its `latitude`/`longitude` columns. -/
def LocationCoherent (db : List HazardRow) : Prop :=
  ∀ h ∈ db, h.location = (h.longitude, h.latitude)

/-- C3: `insert_hazard` performs one atomic table transition — the new state
is the old rows plus exactly one new row — and that single INSERT populates
the geographic point and the `latitude`/`longitude` columns from the same
two coordinate parameters, so the spatial column and the flat columns never
diverge: the coherence invariant is preserved, and no intermediate state
exists for a reader to observe. -/
theorem c3_insert_atomic_coherent (db db2 : List HazardRow) (row : HazardRow)
    (drv : Nat) (lat lon : ℚ) (ty sev : String) (conf : ℚ) (gid : Nat)
    (now : ℤ)
    (hins : insert_hazard db drv lat lon ty sev conf gid now = some (db2, row))
    (hinv : LocationCoherent db) :
    db2 = db ++ [row] ∧ row.location = (lon, lat) ∧ row.latitude = lat ∧
      row.longitude = lon ∧ LocationCoherent db2 := by
  simp only [insert_hazard] at hins
  split at hins
  · rw [Option.some.injEq, Prod.ext_iff] at hins
    obtain ⟨hdb, hrow⟩ := hins
    subst hdb
    subst hrow
    refine ⟨rfl, rfl, rfl, rfl, fun x hx => ?_⟩
    rcases List.mem_append.mp hx with hx | hx
    · exact hinv x hx
    · rcases List.mem_singleton.mp hx with rfl
      rfl
  · exact absurd hins (by simp)

def c3Row : HazardRow :=
  { id := 1, driver_id := 7, hazard_type := "pothole", severity_level := "low",
    confidence_score := 9/10, location := (2, 1), latitude := 1,
    longitude := 2, created_at := 0 }

/-- C3 witness: the theorem applied to a concrete insert into the empty
store. -/
theorem c3_insert_atomic_coherent_witness :
    ([] : List HazardRow) ++ [c3Row] = [] ++ [c3Row] ∧
      c3Row.location = (2, 1) ∧ c3Row.latitude = 1 ∧ c3Row.longitude = 2 ∧
      LocationCoherent ([] ++ [c3Row]) := by
  have h := c3_insert_atomic_coherent [] ([] ++ [c3Row]) c3Row 7 1 2 "pothole"
    "low" (9/10) 1 0 (by with_unfolding_all decide)
    (fun x hx => absurd hx (List.not_mem_nil x))
  exact ⟨rfl, h.2.1, h.2.2.1, h.2.2.2.1, h.2.2.2.2⟩

/-! ### C4 -/

/-- C4 (spec-modelled submit path): for a well-formed submission — valid
coordinates and recognized type — an unrecognized (or absent) severity and a
missing confidence are not rejected: the submit path succeeds, the stored
row's severity defaults to `"medium"`, and its confidence is the
pseudo-random draw, bounded inside the configured range
`[cmin, cmax] ⊆ [0, 1]`. -/
theorem c4_defaulting_always_succeeds (db : List HazardRow) (drv : Nat)
    (lat lon : ℚ) (ty : String) (sev : Option String) (cmin cmax rand : ℚ)
    (gid : Nat) (now : ℤ)
    (hlat1 : -90 ≤ lat) (hlat2 : lat ≤ 90) (hlon1 : -180 ≤ lon)
    (hlon2 : lon ≤ 180) (hty : ty ∈ hazardTypes) (hsev : sevUnrecognized sev)
    (h1 : 0 ≤ cmin) (h2 : cmin ≤ cmax) (h3 : cmax ≤ 1) (h4 : 0 ≤ rand)
    (h5 : rand ≤ 1) :
    ∃ row, submitReport db drv lat lon ty sev none cmin cmax rand gid now =
        (db ++ [row], some row) ∧
      row.severity_level = "medium" ∧
      cmin ≤ row.confidence_score ∧ row.confidence_score ≤ cmax := by
  have hv : validReport lat lon ty = true :=
    (validReport_iff lat lon ty).mpr ⟨hlat1, hlat2, hlon1, hlon2, hty⟩
  have hlo : cmin ≤ cmin + rand * (cmax - cmin) := by nlinarith
  have hhi : cmin + rand * (cmax - cmin) ≤ cmax := by nlinarith
  have hre : resolveConfidence none cmin cmax rand = cmin + rand * (cmax - cmin) := rfl
  have hc : confidenceCheck (resolveConfidence none cmin cmax rand) = true := by
    rw [hre, confidenceCheck_iff]
    exact ⟨le_trans h1 hlo, le_trans hhi h3⟩
  refine ⟨_, submitReport_valid db drv lat lon ty sev none cmin cmax rand
    gid now hv hc, resolveSeverity_of_unrecognized sev hsev, ?_, ?_⟩
  · show cmin ≤ resolveConfidence none cmin cmax rand
    rw [hre]; exact hlo
  · show resolveConfidence none cmin cmax rand ≤ cmax
    rw [hre]; exact hhi

/-- C4 witness: a concrete submission with an unrecognized severity
`"extreme"` and no confidence, under the default configured range
`[0.75, 0.98]`. -/
theorem c4_defaulting_always_succeeds_witness :
    ∃ row, submitReport [] 7 40 (-74) "pothole" (some "extreme") none
        (3/4) (49/50) (1/2) 1 5 = ([] ++ [row], some row) ∧
      row.severity_level = "medium" ∧
      (3/4 : ℚ) ≤ row.confidence_score ∧ row.confidence_score ≤ 49/50 :=
  c4_defaulting_always_succeeds [] 7 40 (-74) "pothole" (some "extreme")
    (3/4) (49/50) (1/2) 1 5 (by norm_num) (by norm_num) (by norm_num)
    (by norm_num) (by with_unfolding_all decide)
    (by show "extreme" ∉ severityLevels; decide)
    (by norm_num) (by norm_num) (by norm_num) (by norm_num) (by norm_num)

/-! ### C5 -/

theorem submitReport_not_valid (db : List HazardRow) (drv : Nat)
    (lat lon : ℚ) (ty : String) (sev : Option String) (conf : Option ℚ)
    (cmin cmax rand : ℚ) (gid : Nat) (now : ℤ)
    (hv : validReport lat lon ty = false) :
    submitReport db drv lat lon ty sev conf cmin cmax rand gid now =
      (db, none) := by
  simp [submitReport, hv]

/-- C5 (spec-modelled validator over the source insert): with a recognized
type and a valid opposite coordinate, latitude exactly 90 and -90 and
longitude exactly 180 are accepted (a row is stored); latitude 90.0001,
-90.0001 and longitude 180.0001 are rejected; and any submission whose
result carries no row — however it was rejected — leaves the stored list of
hazards exactly as it was. -/
theorem c5_validation_boundary (db : List HazardRow) (drv : Nat)
    (lon lat : ℚ) (ty : String) (gid : Nat) (now : ℤ)
    (hty : ty ∈ hazardTypes) (hlon1 : -180 ≤ lon) (hlon2 : lon ≤ 180)
    (hlat1 : -90 ≤ lat) (hlat2 : lat ≤ 90) :
    (∃ row, submitReport db drv 90 lon ty none (some (1/2)) 0 1 0 gid now =
        (db ++ [row], some row)) ∧
    (∃ row, submitReport db drv (-90) lon ty none (some (1/2)) 0 1 0 gid now =
        (db ++ [row], some row)) ∧
    (∃ row, submitReport db drv lat 180 ty none (some (1/2)) 0 1 0 gid now =
        (db ++ [row], some row)) ∧
    submitReport db drv (900001/10000) lon ty none (some (1/2)) 0 1 0 gid now =
      (db, none) ∧
    submitReport db drv (-900001/10000) lon ty none (some (1/2)) 0 1 0 gid now =
      (db, none) ∧
    submitReport db drv lat (1800001/10000) ty none (some (1/2)) 0 1 0 gid now =
      (db, none) ∧
    (∀ (lat2 lon2 : ℚ) (ty2 : String) (sev : Option String) (conf : Option ℚ)
        (cmin cmax rand : ℚ) (gid2 : Nat) (now2 : ℤ),
      (submitReport db drv lat2 lon2 ty2 sev conf cmin cmax rand gid2 now2).2 =
          none →
      (submitReport db drv lat2 lon2 ty2 sev conf cmin cmax rand gid2 now2).1 =
          db) := by
  have hc : confidenceCheck (resolveConfidence (some (1/2)) 0 1 0) = true := by
    rw [confidenceCheck_iff]
    constructor <;> norm_num [resolveConfidence]
  refine ⟨⟨_, submitReport_valid db drv 90 lon ty none (some (1/2)) 0 1 0
      gid now ((validReport_iff _ _ _).mpr
        ⟨by norm_num, by norm_num, hlon1, hlon2, hty⟩) hc⟩,
    ⟨_, submitReport_valid db drv (-90) lon ty none (some (1/2)) 0 1 0
      gid now ((validReport_iff _ _ _).mpr
        ⟨by norm_num, by norm_num, hlon1, hlon2, hty⟩) hc⟩,
    ⟨_, submitReport_valid db drv lat 180 ty none (some (1/2)) 0 1 0
      gid now ((validReport_iff _ _ _).mpr
        ⟨hlat1, hlat2, by norm_num, by norm_num, hty⟩) hc⟩,
    ?_, ?_, ?_, ?_⟩
  · refine submitReport_not_valid db drv _ lon ty none (some (1/2)) 0 1 0
      gid now ?_
    rw [Bool.eq_false_iff, Ne, validReport_iff]
    rintro ⟨-, habs, -⟩
    norm_num at habs
  · refine submitReport_not_valid db drv _ lon ty none (some (1/2)) 0 1 0
      gid now ?_
    rw [Bool.eq_false_iff, Ne, validReport_iff]
    rintro ⟨habs, -⟩
    norm_num at habs
  · refine submitReport_not_valid db drv lat _ ty none (some (1/2)) 0 1 0
      gid now ?_
    rw [Bool.eq_false_iff, Ne, validReport_iff]
    rintro ⟨-, -, -, habs, -⟩
    norm_num at habs
  · intro lat2 lon2 ty2 sev conf cmin cmax rand gid2 now2
    unfold submitReport
    split
    · rcases hins : insert_hazard db drv lat2 lon2 ty2 (resolveSeverity sev)
          (resolveConfidence conf cmin cmax rand) gid2 now2 with - | p
      · simp [hins]
      · simp [hins]
    · simp

/-- C5 witness: the boundary facts at a concrete store and report. -/
theorem c5_validation_boundary_witness :
    (∃ row, submitReport [] 0 90 0 "pothole" none (some (1/2)) 0 1 0 0 0 =
        ([] ++ [row], some row)) ∧
    (∃ row, submitReport [] 0 (-90) 0 "pothole" none (some (1/2)) 0 1 0 0 0 =
        ([] ++ [row], some row)) ∧
    (∃ row, submitReport [] 0 0 180 "pothole" none (some (1/2)) 0 1 0 0 0 =
        ([] ++ [row], some row)) ∧
    submitReport [] 0 (900001/10000) 0 "pothole" none (some (1/2)) 0 1 0 0 0 =
      ([], none) ∧
    submitReport [] 0 (-900001/10000) 0 "pothole" none (some (1/2)) 0 1 0 0 0 =
      ([], none) ∧
    submitReport [] 0 0 (1800001/10000) "pothole" none (some (1/2)) 0 1 0 0 0 =
      ([], none) ∧
    (∀ (lat2 lon2 : ℚ) (ty2 : String) (sev : Option String) (conf : Option ℚ)
        (cmin cmax rand : ℚ) (gid2 : Nat) (now2 : ℤ),
      (submitReport [] 0 lat2 lon2 ty2 sev conf cmin cmax rand gid2 now2).2 =
          none →
      (submitReport [] 0 lat2 lon2 ty2 sev conf cmin cmax rand gid2 now2).1 =
          []) :=
  c5_validation_boundary [] 0 0 0 "pothole" 0 0
    (by with_unfolding_all decide) (by norm_num) (by norm_num) (by norm_num)
    (by norm_num)

/-! ### C6 -/

theorem pgCastInt_le (q : ℚ) : (pgCastInt q : ℚ) ≤ q + 1/2 := by
  rw [pgCastInt, ratFloor_eq_floor]
  exact Int.floor_le _

theorem lt_pgCastInt (q : ℚ) : q - 1/2 < (pgCastInt q : ℚ) := by
  rw [pgCastInt, ratFloor_eq_floor]
  have := Int.sub_one_lt_floor (q + 1/2)
  linarith

theorem toFixed2_bounds (q : ℚ) :
    q - 1/200 < toFixed2 q ∧ toFixed2 q ≤ q + 1/200 := by
  unfold toFixed2
  have h1 := lt_pgCastInt (q * 100)
  have h2 := pgCastInt_le (q * 100)
  constructor <;> linarith

theorem toFixed2_unit (q : ℚ) (h1 : 1/200 ≤ q) (h2 : q ≤ 199/200) :
    0 ≤ toFixed2 q ∧ toFixed2 q ≤ 1 := by
  obtain ⟨hl, hr⟩ := toFixed2_bounds q
  constructor <;> linarith

/-- The confidence invariant of the `hazards` table: every stored row's
`confidence_score` lies in the unit interval (the CHECK constraint). -/
def ConfidenceInv (db : List HazardRow) : Prop :=
  ∀ h ∈ db, 0 ≤ h.confidence_score ∧ h.confidence_score ≤ 1

/-- C6: every hazard record stored or returned has a confidence score in
[0, 1]: a successful `insert_hazard` preserves the table invariant (the
CHECK admits only such rows, so the backend submit path can only store and
echo back bounded scores), and each of the client's generated records — the
`reportHazard` fallback record, the `_mockHistory` records and the
`_mockNearby` records, whose `Math.random()` draw lies in [0, 1) — carries a
bounded score too. -/
theorem c6_confidence_in_unit_interval :
    (∀ (db db2 : List HazardRow) (row : HazardRow) (drv : Nat) (lat lon : ℚ)
        (ty sev : String) (conf : ℚ) (gid : Nat) (now : ℤ),
      insert_hazard db drv lat lon ty sev conf gid now = some (db2, row) →
      ConfidenceInv db → ConfidenceInv db2) ∧
    (∀ (driverId : String) (lat lon : ℚ) (ty : String) (now : ℤ)
        (sevIdx : Fin severityChoices.length) (rand : ℚ),
      0 ≤ rand → rand < 1 →
      0 ≤ (mockReportRecord driverId lat lon ty now sevIdx rand).confidence_score ∧
        (mockReportRecord driverId lat lon ty now sevIdx rand).confidence_score ≤ 1) ∧
    (∀ rand : ℚ, 0 ≤ rand → rand < 1 →
      0 ≤ mockHistoryConfidence rand ∧ mockHistoryConfidence rand ≤ 1) ∧
    (∀ rand : ℚ, 0 ≤ rand → rand < 1 →
      0 ≤ mockNearbyConfidence rand ∧ mockNearbyConfidence rand ≤ 1) := by
  refine ⟨?_, ?_, ?_, ?_⟩
  · intro db db2 row drv lat lon ty sev conf gid now hins hinv
    simp only [insert_hazard] at hins
    split at hins
    · rename_i hc
      rw [confidenceCheck_iff] at hc
      rw [Option.some.injEq, Prod.ext_iff] at hins
      obtain ⟨hdb, hrow⟩ := hins
      subst hdb
      subst hrow
      intro x hx
      rcases List.mem_append.mp hx with hx | hx
      · exact hinv x hx
      · rcases List.mem_singleton.mp hx with rfl
        exact hc
    · exact absurd hins (by simp)
  · intro driverId lat lon ty now sevIdx rand hr0 hr1
    show 0 ≤ toFixed2 (3/4 + rand * (23/100)) ∧
      toFixed2 (3/4 + rand * (23/100)) ≤ 1
    refine toFixed2_unit _ (by nlinarith) (by nlinarith)
  · intro rand hr0 hr1
    exact toFixed2_unit _ (by nlinarith) (by nlinarith)
  · intro rand hr0 hr1
    exact toFixed2_unit _ (by nlinarith) (by nlinarith)

/-! ### C7 -/

/-- C7: for every entry of the nearby response, the attached `distance_km`
times 1000 is exactly the integer `distance_meters` the query computed for
that hazard — the division by 1000 at the boundary loses no precision — and
that integer is the rounded internal distance. -/
theorem c7_distance_km_conversion (dist : ℚ × ℚ → ℚ × ℚ → ℚ)
    (db : List HazardRow) (lat lon rkm : ℚ) (h : HazardRow) (dm : ℤ)
    (dkm : ℚ)
    (hmem : (h, dm, dkm) ∈ nearbyHazardsResponse dist db lat lon rkm) :
    dkm * 1000 = (dm : ℚ) ∧ dm = pgCastInt (dist h.location (lon, lat)) := by
  rcases List.mem_map.mp hmem with ⟨⟨h0, dm0⟩, hmem0, heq⟩
  simp only [Prod.mk.injEq] at heq
  obtain ⟨rfl, rfl, rfl⟩ := heq
  have hq := (mem_get_hazards_within_radius dist db lat lon rkm h0 dm0).mp hmem0
  constructor
  · rw [div_mul_cancel₀]
    norm_num
  · exact hq.2.2

def c7Row : HazardRow :=
  { id := 4, driver_id := 7, hazard_type := "accident",
    severity_level := "high", confidence_score := 1/2, location := (0, 0),
    latitude := 0, longitude := 0, created_at := 1 }

/-- C7 witness: the theorem applied to a one-row store at constant distance
7 m from the center. -/
theorem c7_distance_km_conversion_witness :
    ((7 : ℤ) : ℚ)/1000 * 1000 = ((7 : ℤ) : ℚ) ∧
      (7 : ℤ) = pgCastInt ((fun _ _ => (7 : ℚ)) c7Row.location
        ((0 : ℚ), (0 : ℚ))) :=
  c7_distance_km_conversion (fun _ _ => (7 : ℚ)) [c7Row] 0 0 1 c7Row 7
    (((7 : ℤ) : ℚ)/1000) (by with_unfolding_all decide)

/-! ### C8 -/

/-- C8 (spec-modelled history operation): `history` returns only hazards of
the requested reporter, in `created_at`-descending order, at most `limit` of
them; an offset at or beyond the number of matching hazards yields the empty
sequence (not an error); and with offset 0 and a large enough limit the
result is exactly the reporter's hazards (as a permutation of the matching
rows). -/
theorem c8_history_pagination (db : List HazardRow) (reporter : Nat)
    (L O : Nat) :
    (∀ h ∈ history db reporter L O, h ∈ db ∧ h.driver_id = reporter) ∧
    List.Sorted (fun a b : HazardRow => b.created_at ≤ a.created_at)
      (history db reporter L O) ∧
    (history db reporter L O).length ≤ L ∧
    ((db.filter fun h => decide (h.driver_id = reporter)).length ≤ O →
      history db reporter L O = []) ∧
    (O = 0 →
      (db.filter fun h => decide (h.driver_id = reporter)).length ≤ L →
      List.Perm (history db reporter L O)
        (db.filter fun h => decide (h.driver_id = reporter))) := by
  have hperm := List.perm_insertionSort
    (fun a b : HazardRow => b.created_at ≤ a.created_at)
    (db.filter fun h => decide (h.driver_id = reporter))
  refine ⟨?_, ?_, ?_, ?_, ?_⟩
  · intro h hmem
    have h1 : h ∈ List.insertionSort
        (fun a b : HazardRow => b.created_at ≤ a.created_at)
        (db.filter fun h => decide (h.driver_id = reporter)) :=
      (List.drop_subset _ _) ((List.take_subset _ _) hmem)
    have h2 := hperm.subset h1
    have h3 := List.mem_filter.mp h2
    exact ⟨h3.1, of_decide_eq_true h3.2⟩
  · have hs := List.sorted_insertionSort
      (fun a b : HazardRow => b.created_at ≤ a.created_at)
      (db.filter fun h => decide (h.driver_id = reporter))
    exact hs.sublist ((List.take_sublist _ _).trans (List.drop_sublist _ _))
  · rw [history, List.length_take]
    exact min_le_left _ _
  · intro hO
    rw [history, List.drop_eq_nil_of_le, List.take_nil]
    rw [hperm.length_eq]
    exact hO
  · rintro rfl hL
    rw [history, List.drop_zero, List.take_of_length_le]
    · exact hperm
    · rw [hperm.length_eq]
      exact hL

/-! ### C9 -/

/-- C9: whenever `reportHazard` resolves a driver id — whichever branch
runs, backend success (`apiResult = some data`) or the catch-branch fallback
(`apiResult = none`) — the new state is exactly the old state with one
record prepended to `driverHistory` and `nearbyHazardsCount` incremented by
one (the record-update equality says every other field, `nearbyHazards`
included, is untouched); consequently, whenever the count matched the length
of `nearbyHazards` before the call, it exceeds it after. -/
theorem c9_reportHazard_frame (s : StoreState) (idArg : Option String)
    (lat lon : ℚ) (ty : String) (apiResult : Option ClientHazard) (now : ℤ)
    (sevIdx : Fin severityChoices.length) (rand : ℚ) (d : String)
    (hid : jsOr idArg s.driverId = some d) :
    ∃ r, reportHazard s idArg lat lon ty apiResult now sevIdx rand =
        ({ s with
            driverHistory := r :: s.driverHistory
            nearbyHazardsCount := s.nearbyHazardsCount + 1 }, some r) ∧
      (s.nearbyHazardsCount = s.nearbyHazards.length →
        s.nearbyHazards.length < s.nearbyHazardsCount + 1) := by
  unfold reportHazard
  rw [hid]
  exact ⟨_, rfl, fun h => by omega⟩

def c9State : StoreState :=
  { driverId := some "demo", driverSettings := none, nearbyHazards := []
    nearbyHazardsCount := 0, driverHistory := [], loading := false
    error := none }

/-- C9 witness: a concrete fallback-branch invocation on a store whose
count equals its (empty) nearby list. -/
theorem c9_reportHazard_frame_witness :
    ∃ r, reportHazard c9State none 0 0 "pothole" none 5
        ⟨0, by decide⟩ 0 =
        ({ c9State with
            driverHistory := r :: c9State.driverHistory
            nearbyHazardsCount := c9State.nearbyHazardsCount + 1 }, some r) ∧
      (c9State.nearbyHazardsCount = c9State.nearbyHazards.length →
        c9State.nearbyHazards.length < c9State.nearbyHazardsCount + 1) :=
  c9_reportHazard_frame c9State none 0 0 "pothole" none 5 ⟨0, by decide⟩ 0
    "demo" rfl

/-! ### C10 -/

theorem pushGroup_flatten {κ α : Type} [DecidableEq κ] (k : κ) (x : α) :
    ∀ g : List (κ × List α),
      List.Perm ((pushGroup k x g).map Prod.snd).flatten
        (x :: (g.map Prod.snd).flatten)
  | [] => by simp [pushGroup]
  | (k2, xs) :: rest => by
    by_cases hk : k = k2
    · simp only [pushGroup, if_pos hk, List.map_cons, List.flatten_cons]
      rw [List.append_assoc, List.singleton_append]
      exact List.perm_middle
    · simp only [pushGroup, if_neg hk, List.map_cons, List.flatten_cons]
      exact (List.Perm.append_left xs (pushGroup_flatten k x rest)).trans
        List.perm_middle

theorem foldl_pushGroup_flatten {κ α : Type} [DecidableEq κ] (f : α → κ) :
    ∀ (l : List α) (g : List (κ × List α)),
      List.Perm
        ((l.foldl (fun g x => pushGroup (f x) x g) g).map Prod.snd).flatten
        (l ++ (g.map Prod.snd).flatten)
  | [], g => List.Perm.refl _
  | x :: l, g => by
    simp only [List.foldl_cons, List.cons_append]
    exact (foldl_pushGroup_flatten f l (pushGroup (f x) x g)).trans
      ((List.Perm.append_left l (pushGroup_flatten (f x) x g)).trans
        List.perm_middle)

theorem pushGroup_keys {κ α : Type} [DecidableEq κ] (k : κ) (x : α) :
    ∀ g : List (κ × List α),
      (pushGroup k x g).map Prod.fst =
        if k ∈ g.map Prod.fst then g.map Prod.fst
        else g.map Prod.fst ++ [k]
  | [] => by simp [pushGroup]
  | (k2, xs) :: rest => by
    by_cases hk : k = k2
    · subst hk
      simp [pushGroup]
    · simp only [pushGroup, if_neg hk, List.map_cons, pushGroup_keys k x rest,
        List.mem_cons]
      by_cases hm : k ∈ rest.map Prod.fst
      · simp [hm, hk]
      · simp [hm, hk]

theorem pushGroup_keys_nodup {κ α : Type} [DecidableEq κ] (k : κ) (x : α)
    (g : List (κ × List α)) (hg : (g.map Prod.fst).Nodup) :
    ((pushGroup k x g).map Prod.fst).Nodup := by
  rw [pushGroup_keys]
  by_cases hm : k ∈ g.map Prod.fst
  · rw [if_pos hm]
    exact hg
  · rw [if_neg hm]
    exact ((List.perm_append_singleton k _).nodup_iff).mpr
      (List.nodup_cons.mpr ⟨hm, hg⟩)

theorem foldl_pushGroup_keys_nodup {κ α : Type} [DecidableEq κ] (f : α → κ) :
    ∀ (l : List α) (g : List (κ × List α)), (g.map Prod.fst).Nodup →
      ((l.foldl (fun g x => pushGroup (f x) x g) g).map Prod.fst).Nodup
  | [], _, hg => hg
  | x :: l, g, hg =>
    foldl_pushGroup_keys_nodup f l _ (pushGroup_keys_nodup (f x) x g hg)

theorem pushGroup_inv {κ α : Type} [DecidableEq κ] (f : α → κ) (k : κ)
    (x : α) (hk : f x = k) (g : List (κ × List α))
    (hg : ∀ p ∈ g, ∀ y ∈ p.2, f y = p.1) :
    ∀ p ∈ pushGroup k x g, ∀ y ∈ p.2, f y = p.1 := by
  revert hg
  induction g with
  | nil =>
    intro hg p hp y hy
    rcases List.mem_singleton.mp hp with rfl
    rcases List.mem_singleton.mp hy with rfl
    exact hk
  | cons hd rest ih =>
    obtain ⟨k2, xs⟩ := hd
    intro hg p hp y hy
    by_cases h2 : k = k2
    · simp only [pushGroup, if_pos h2] at hp
      rcases List.mem_cons.mp hp with rfl | hp2
      · rcases List.mem_append.mp hy with hy2 | hy2
        · exact hg (k2, xs) (List.mem_cons_self _ _) y hy2
        · rcases List.mem_singleton.mp hy2 with rfl
          rw [hk, h2]
      · exact hg p (List.mem_cons_of_mem _ hp2) y hy
    · simp only [pushGroup, if_neg h2] at hp
      rcases List.mem_cons.mp hp with rfl | hp2
      · exact hg (k2, xs) (List.mem_cons_self _ _) y hy
      · exact ih (fun q hq => hg q (List.mem_cons_of_mem _ hq)) p hp2 y hy

theorem foldl_pushGroup_inv {κ α : Type} [DecidableEq κ] (f : α → κ) :
    ∀ (l : List α) (g : List (κ × List α)),
      (∀ p ∈ g, ∀ y ∈ p.2, f y = p.1) →
      ∀ p ∈ l.foldl (fun g x => pushGroup (f x) x g) g, ∀ y ∈ p.2, f y = p.1
  | [], _, hg => hg
  | x :: l, g, hg =>
    foldl_pushGroup_inv f l _ (pushGroup_inv f (f x) x rfl g hg)

/-- C10: `groupIncidentsByDate` partitions its input — the concatenation of
all sections' data is a permutation of the incident list, each incident sits
in the (unique) section titled with its own date key, and section titles are
pairwise distinct — and the sections come out ordered by rank: `Today`
(rank 0) first, then `Yesterday` (1), then `This Week` (2), then all
remaining date-labelled sections (rank 3). -/
theorem c10_groupIncidentsByDate_partition (today : JsDate)
    (incidents : List Incident) :
    List.Perm
      ((groupIncidentsByDate today incidents).map HistorySection.data).flatten
      incidents ∧
    (∀ s ∈ groupIncidentsByDate today incidents, ∀ x ∈ s.data,
      dateKeyOf today x.created_at = s.title) ∧
    ((groupIncidentsByDate today incidents).map HistorySection.title).Nodup ∧
    List.Sorted (fun a b : Nat => a ≤ b)
      ((groupIncidentsByDate today incidents).map fun s => keyRank s.title) := by
  have hperm := List.perm_insertionSort
    (fun a b : DateKey × List Incident => keyRank a.1 ≤ keyRank b.1)
    (incidents.foldl
      (fun g item => pushGroup (dateKeyOf today item.created_at) item g) [])
  refine ⟨?_, ?_, ?_, ?_⟩
  · simp only [groupIncidentsByDate, List.map_map]
    exact (List.Perm.flatten (hperm.map Prod.snd)).trans
      ((foldl_pushGroup_flatten
          (fun item => dateKeyOf today item.created_at) incidents []).trans
        (by simp))
  · intro s hs x hx
    simp only [groupIncidentsByDate, List.mem_map] at hs
    obtain ⟨p, hp, rfl⟩ := hs
    exact foldl_pushGroup_inv (fun item => dateKeyOf today item.created_at)
      incidents [] (fun q hq => absurd hq (List.not_mem_nil q)) p
      (hperm.subset hp) x hx
  · simp only [groupIncidentsByDate, List.map_map]
    exact ((hperm.map Prod.fst).nodup_iff).mpr
      (foldl_pushGroup_keys_nodup
        (fun item => dateKeyOf today item.created_at) incidents []
        List.nodup_nil)
  · simp only [groupIncidentsByDate, List.map_map]
    exact (List.pairwise_map).mpr
      (List.sorted_insertionSort
        (fun a b : DateKey × List Incident => keyRank a.1 ≤ keyRank b.1) _)

end Civora
